import Mathlib

/-!
# Verification of the snake game core (src/main.rs)

Shallow embedding of the Rust snake game: the data model (`Direction`,
`Snake`, `Board`, `Game`), the movement transition `Snake.move_position`,
the grid drawing operations, and the per-tick transition `Game.step`.

Machine integers: all Rust `usize` values are modelled as `Nat`.  The only
arithmetic sites where wrap-around (Rust release-mode overflow) can occur
are the unguarded subtractions `height - 1`, `width - 1` and `y - 1`
(in `Snake::new` and in the wrap branches of the movement match); these are
modelled with an explicit `% 2 ^ 64` via `wrappingSub`.  The increments
`y + 1` / `x + 1` are immediately compared against the board dimension
(itself a `usize`, hence `< 2 ^ 64`), so plain `Nat` addition agrees with
the machine result wherever the comparison is meaningful.

Randomness: `Game::new_fruit_position` draws from a thread-local RNG; the
embedding takes the drawn coordinate as an explicit argument `d` to
`new_fruit_position`, `check_fruit`, `step` and `init`.
-/

/-- Number of values of the 64-bit `usize` type. -/
def USIZE : Nat := 2 ^ 64

/-- Wrapping (release-mode) `usize` subtraction, `(a - b) mod 2^64`. -/
def wrappingSub (a b : Nat) : Nat :=
  (a % USIZE + (USIZE - b % USIZE)) % USIZE

/-- Embeds `const SNAKE_CHAR: char` (the body symbol). -/
def SNAKE_CHAR : Char := '■'

/-- Embeds `const BG_CHAR: char` (the background symbol). -/
def BG_CHAR : Char := '.'

/-- Embeds `const FRUIT_CHAR: char` (the fruit symbol). -/
def FRUIT_CHAR : Char := 'x'

/-- The `Direction` enum. -/
inductive Direction : Type
  | UP
  | DOWN
  | LEFT
  | RIGHT
deriving DecidableEq, Repr

/-- The `Snake` struct.  `positions` is the `VecDeque<(usize, usize)>`,
listed front (tail of the snake) first, back (head of the snake) last. -/
structure Snake : Type where
  size : Nat
  direction : Direction
  positions : List (Nat × Nat)
  grow : Nat
deriving DecidableEq, Repr

/-- The `Board` struct; `cells` is the `Vec<Vec<char>>`, indexed `cells[y][x]`. -/
structure Board : Type where
  height : Nat
  width : Nat
  cells : List (List Char)
deriving DecidableEq, Repr

/-- Embeds `Board::new`: a `height × width` grid filled with `BG_CHAR`.
The source performs no validation of the dimensions. -/
def Board.new (height width : Nat) : Board :=
  { height := height
    width := width
    cells := List.replicate height (List.replicate width BG_CHAR) }

/-- Embeds `Snake::new`: two segments at `(width/2, height/2)` and
`(width/2, height/2 - 1)` (wrapping subtraction), heading `DOWN`,
`size = 2`, `grow = 0`. -/
def Snake.new (board : Board) : Snake :=
  let x := board.width / 2
  let y := board.height / 2
  { size := 2
    direction := Direction.DOWN
    positions := [(x, y), (x, wrappingSub y 1)]
    grow := 0 }

/-- Embeds `Snake::grow`: increment the pending-growth counter.
(Named `doGrow` because `Snake.grow` is the field accessor.) -/
def Snake.doGrow (s : Snake) : Snake :=
  { s with grow := s.grow + 1 }

/-- The `match self.direction` block of `Snake::move_position`, advancing a
coordinate one cell with wrap-around.  `UP`/`LEFT` guard the decrement and
wrap to `dimension - 1`; `DOWN`/`RIGHT` increment and wrap to `0` when the
result reaches the dimension. -/
def next_head (direction : Direction) (board : Board) (c : Nat × Nat) : Nat × Nat :=
  match direction with
  | Direction.UP => if c.2 ≠ 0 then (c.1, c.2 - 1) else (c.1, wrappingSub board.height 1)
  | Direction.DOWN => if c.2 + 1 ≥ board.height then (c.1, 0) else (c.1, c.2 + 1)
  | Direction.LEFT => if c.1 ≠ 0 then (c.1 - 1, c.2) else (wrappingSub board.width 1, c.2)
  | Direction.RIGHT => if c.1 + 1 ≥ board.width then (0, c.2) else (c.1 + 1, c.2)

/-- Embeds `Snake::move_position`: record the front (tail) coordinate, consume one
unit of pending growth or else pop the front, then (when the remaining
sequence has a back element) push the advanced back coordinate as the new
head.  Returns the recorded old tail together with the updated snake. -/
def Snake.move_position (s : Snake) (board : Board) : (Nat × Nat) × Snake :=
  let tail_pos : Nat × Nat :=
    match s.positions.head? with
    | some tail => tail
    | none => (0, 0)
  let s1 : Snake :=
    if 0 < s.grow then
      { s with grow := s.grow - 1 }
    else
      { s with positions := s.positions.tail }
  match s1.positions.getLast? with
  | some c => (tail_pos, { s1 with positions := s1.positions ++ [next_head s1.direction board c] })
  | none => (tail_pos, s1)

/-- Embeds the write `self.cells[y][x] = ch` (a no-op when the index is out of range; every
write performed by the game is in range under the game invariant). -/
def Board.setCell (b : Board) (x y : Nat) (ch : Char) : Board :=
  { b with cells := b.cells.set y ((b.cells.getD y []).set x ch) }

/-- Read `cells[y][x]` (with a placeholder default out of range). -/
def Board.cellAt (b : Board) (x y : Nat) : Char :=
  (b.cells.getD y []).getD x ' '

/-- Embeds `Board::draw_snake`: erase the old tail cell, then write `SNAKE_CHAR`
at every coordinate of the body. -/
def Board.draw_snake (b : Board) (snake : Snake) (old_position : Nat × Nat) : Board :=
  let b1 := b.setCell old_position.1 old_position.2 BG_CHAR
  snake.positions.foldl (fun acc p => acc.setCell p.1 p.2 SNAKE_CHAR) b1

/-- Embeds `Board::draw_fruit`: write `FRUIT_CHAR` at the fruit coordinate. -/
def Board.draw_fruit (b : Board) (fruit_position : Nat × Nat) : Board :=
  b.setCell fruit_position.1 fruit_position.2 FRUIT_CHAR

/-- The `Game` struct. -/
structure Game : Type where
  board : Board
  snake : Snake
  fruit_position : Nat × Nat
deriving DecidableEq, Repr

/-- Embeds `Game::new_fruit_position`; the random draw is the argument `d`. -/
def Game.new_fruit_position (g : Game) (d : Nat × Nat) : Game :=
  { g with fruit_position := d }

/-- Embeds `Game::check_fruit`: when the fruit coordinate occurs anywhere in the
body sequence, redraw the fruit position (to the random draw `d`) and
increment the pending-growth counter. -/
def Game.check_fruit (g : Game) (d : Nat × Nat) : Game :=
  if g.fruit_position ∈ g.snake.positions then
    let g1 := g.new_fruit_position d
    { g1 with snake := g1.snake.doGrow }
  else
    g

/-- Embeds `Game::step`: move the snake, redraw the body (erasing the returned old
tail), check fruit collision, then draw the (possibly new) fruit. -/
def Game.step (g : Game) (d : Nat × Nat) : Game :=
  let m := g.snake.move_position g.board
  let g1 : Game := { board := g.board.draw_snake m.2 m.1, snake := m.2, fruit_position := g.fruit_position }
  let g2 := g1.check_fruit d
  { g2 with board := g2.board.draw_fruit g2.fruit_position }

/-- Embeds `Game::init`: draw the initial fruit (random draw `d`), then draw the
snake passing `(0, 0)` as the "old position" to erase. -/
def Game.init (g : Game) (d : Nat × Nat) : Game :=
  let g1 := g.new_fruit_position d
  let b1 := g1.board.draw_fruit g1.fruit_position
  { g1 with board := b1.draw_snake g1.snake (0, 0) }

/-- The initial game built in `main`: a 20 × 20 board, the freshly
constructed snake, and fruit position `(0, 0)` (before `init`). -/
def mainGame : Game :=
  { board := Board.new 20 20
    snake := Snake.new (Board.new 20 20)
    fruit_position := (0, 0) }

/-! ## Arithmetic helper lemmas -/

lemma USIZE_eq : USIZE = 18446744073709551616 := by norm_num [USIZE]

lemma wrappingSub_one_lt {h : Nat} (hh : 0 < h) : wrappingSub h 1 < h := by
  unfold wrappingSub
  rw [USIZE_eq]
  omega

lemma wrappingSub_one_eq {h : Nat} (hh : 1 ≤ h) (hle : h ≤ USIZE) :
    wrappingSub h 1 = h - 1 := by
  unfold wrappingSub
  rw [USIZE_eq] at *
  omega

/-! ## Characterization of the movement transition -/

/-- The body sequence after the possible tail removal in `move_position`:
with pending growth the whole sequence is kept, otherwise the front (tail)
element is dropped. -/
def moveBody (s : Snake) : List (Nat × Nat) :=
  if 0 < s.grow then s.positions else s.positions.tail

/-- Unfolding equation for `Snake.move_position` in terms of `moveBody`. -/
lemma move_position_def (s : Snake) (b : Board) :
    s.move_position b =
      (s.positions.head?.getD (0, 0),
        { s with
            grow := if 0 < s.grow then s.grow - 1 else s.grow
            positions :=
              match (moveBody s).getLast? with
              | some c => moveBody s ++ [next_head s.direction b c]
              | none => moveBody s }) := by
  rcases s with ⟨sz, dir, ps, gr⟩
  by_cases hg : 0 < gr
  · cases ps with
    | nil => simp [Snake.move_position, moveBody, hg]
    | cons a t =>
      simp only [Snake.move_position, moveBody, if_pos hg]
      split <;> simp_all
  · cases ps with
    | nil => simp [Snake.move_position, moveBody, hg]
    | cons a t =>
      simp only [Snake.move_position, moveBody, if_neg hg]
      split <;> simp_all

lemma move_position_fst (s : Snake) (b : Board) :
    (s.move_position b).1 = s.positions.head?.getD (0, 0) := by
  rw [move_position_def]

lemma move_size (s : Snake) (b : Board) : (s.move_position b).2.size = s.size := by
  rw [move_position_def]

lemma move_direction (s : Snake) (b : Board) :
    (s.move_position b).2.direction = s.direction := by
  rw [move_position_def]

lemma move_grow (s : Snake) (b : Board) :
    (s.move_position b).2.grow = if 0 < s.grow then s.grow - 1 else s.grow := by
  rw [move_position_def]

lemma move_positions (s : Snake) (b : Board) :
    (s.move_position b).2.positions =
      match (moveBody s).getLast? with
      | some c => moveBody s ++ [next_head s.direction b c]
      | none => moveBody s := by
  rw [move_position_def]

lemma tail_ne_nil_of_two_le {l : List (Nat × Nat)} (h : 2 ≤ l.length) :
    l.tail ≠ [] := by
  cases l with
  | nil => simp at h
  | cons a t =>
    simp only [List.tail_cons]
    intro he
    rw [he] at h
    simp at h

/-- With pending growth the tail is retained and the advanced back
coordinate is appended. -/
lemma move_positions_of_grow {s : Snake} (b : Board)
    (hg : 0 < s.grow) (hne : s.positions ≠ []) :
    (s.move_position b).2.positions
      = s.positions ++ [next_head s.direction b (s.positions.getLast hne)] := by
  rw [move_positions]
  have hb : moveBody s = s.positions := by simp [moveBody, hg]
  rw [hb, List.getLast?_eq_getLast _ hne]

/-- Without pending growth the front is removed and the advanced back
coordinate of the remainder is appended. -/
lemma move_positions_of_nogrow {s : Snake} (b : Board)
    (hg : s.grow = 0) (hlen : 2 ≤ s.positions.length) :
    (s.move_position b).2.positions
      = s.positions.tail
          ++ [next_head s.direction b
                (s.positions.tail.getLast (tail_ne_nil_of_two_le hlen))] := by
  rw [move_positions]
  have hb : moveBody s = s.positions.tail := by simp [moveBody, hg]
  rw [hb, List.getLast?_eq_getLast _ (tail_ne_nil_of_two_le hlen)]

lemma move_length_of_grow {s : Snake} (b : Board)
    (hg : 0 < s.grow) (hne : s.positions ≠ []) :
    (s.move_position b).2.positions.length = s.positions.length + 1 := by
  rw [move_positions_of_grow b hg hne]
  simp

lemma move_length_of_nogrow {s : Snake} (b : Board)
    (hg : s.grow = 0) (hlen : 2 ≤ s.positions.length) :
    (s.move_position b).2.positions.length = s.positions.length := by
  rw [move_positions_of_nogrow b hg hlen]
  have := List.length_tail s.positions
  simp only [List.length_append, List.length_cons, List.length_nil]
  omega

/-- Every coordinate of the old body is either still in the moved body or
is the removed old tail (the first component of the result). -/
lemma mem_move_positions {s : Snake} (b : Board)
    (hlen : 2 ≤ s.positions.length) {p : Nat × Nat} (hp : p ∈ s.positions) :
    p ∈ (s.move_position b).2.positions ∨ p = (s.move_position b).1 := by
  have hne : s.positions ≠ [] := by
    intro he
    rw [he] at hlen
    simp at hlen
  by_cases hg : 0 < s.grow
  · left
    rw [move_positions_of_grow b hg hne]
    exact List.mem_append_left _ hp
  · have hg0 : s.grow = 0 := by omega
    rcases List.exists_cons_of_ne_nil hne with ⟨a, t, hat⟩
    rw [move_position_fst, hat]
    rw [hat] at hp
    rcases List.mem_cons.mp hp with rfl | hpt
    · right
      simp
    · left
      rw [move_positions_of_nogrow b hg0 hlen]
      apply List.mem_append_left
      have ht : s.positions.tail = t := by rw [hat]; rfl
      rw [ht]
      exact hpt

/-- The new body after movement is contained in the old body plus the new
head appended by the transition. -/
lemma move_positions_subset {s : Snake} (b : Board)
    {p : Nat × Nat} (hp : p ∈ (s.move_position b).2.positions) :
    p ∈ s.positions ∨
      ∃ c, c ∈ s.positions ∧ p = next_head s.direction b c := by
  rw [move_positions] at hp
  have hsub : ∀ q, q ∈ moveBody s → q ∈ s.positions := by
    intro q hq
    by_cases hg : 0 < s.grow
    · simpa [moveBody, hg] using hq
    · simp only [moveBody, if_neg hg] at hq
      exact List.mem_of_mem_tail hq
  rcases hlast : (moveBody s).getLast? with _ | c
  · rw [hlast] at hp
    exact Or.inl (hsub p hp)
  · rw [hlast] at hp
    rcases List.mem_append.mp hp with hin | hnew
    · exact Or.inl (hsub p hin)
    · right
      refine ⟨c, hsub c ?_, by simpa using hnew⟩
      exact List.mem_of_mem_getLast? hlast

/-- The advanced coordinate stays inside the board whenever the source
coordinate does. -/
lemma next_head_lt {b : Board} {c : Nat × Nat} (d : Direction)
    (hx : c.1 < b.width) (hy : c.2 < b.height) :
    (next_head d b c).1 < b.width ∧ (next_head d b c).2 < b.height := by
  cases d <;> unfold next_head <;> dsimp only <;> split_ifs with h
  · exact ⟨hx, by omega⟩
  · exact ⟨hx, wrappingSub_one_lt (by omega)⟩
  · exact ⟨hx, by omega⟩
  · exact ⟨hx, by omega⟩
  · exact ⟨by omega, hy⟩
  · exact ⟨wrappingSub_one_lt (by omega), hy⟩
  · exact ⟨by omega, hy⟩
  · exact ⟨by omega, hy⟩

/-! ## Grid lemmas -/

/-- The cell matrix really has `height` rows of `width` columns. -/
def Board.dimOk (b : Board) : Prop :=
  b.cells.length = b.height ∧ ∀ y < b.height, (b.cells.getD y []).length = b.width

lemma height_setCell (b : Board) (x y : Nat) (ch : Char) :
    (b.setCell x y ch).height = b.height := rfl

lemma width_setCell (b : Board) (x y : Nat) (ch : Char) :
    (b.setCell x y ch).width = b.width := rfl

lemma getD_set_list {α : Type} (l : List α) (i j : Nat) (a : α) (d : α) :
    (l.set i a).getD j d
      = if i = j ∧ i < l.length then a else l.getD j d := by
  rw [List.getD_eq_getElem?_getD, List.getD_eq_getElem?_getD, List.getElem?_set]
  by_cases hij : i = j
  · by_cases hil : i < l.length
    · subst hij
      simp [hil]
    · subst hij
      simp [hil, List.getElem?_eq_none (by omega : l.length ≤ i)]
  · simp [hij]

lemma rows_setCell (b : Board) (x0 y0 : Nat) (ch : Char) (y : Nat) :
    ((b.setCell x0 y0 ch).cells.getD y [])
      = if y0 = y ∧ y0 < b.cells.length
        then (b.cells.getD y0 []).set x0 ch
        else b.cells.getD y [] := by
  unfold Board.setCell
  exact getD_set_list ..

lemma dimOk_setCell {b : Board} (hd : b.dimOk) (x y : Nat) (ch : Char) :
    (b.setCell x y ch).dimOk := by
  rcases hd with ⟨hlen, hrow⟩
  constructor
  · unfold Board.setCell
    simp [hlen]
  · intro j hj
    rw [height_setCell] at hj
    rw [width_setCell, rows_setCell]
    split_ifs with hcase
    · rw [List.length_set]
      exact hrow y (hlen ▸ hcase.2)
    · exact hrow j hj

lemma cellAt_setCell {b : Board} (hd : b.dimOk) {x0 y0 : Nat}
    (hx0 : x0 < b.width) (hy0 : y0 < b.height) (ch : Char) (x y : Nat) :
    (b.setCell x0 y0 ch).cellAt x y
      = if x = x0 ∧ y = y0 then ch else b.cellAt x y := by
  rcases hd with ⟨hlen, hrow⟩
  unfold Board.cellAt
  rw [rows_setCell]
  by_cases hy : y0 = y
  · subst hy
    rw [if_pos ⟨rfl, by omega⟩, getD_set_list, hrow y0 hy0]
    by_cases hx : x0 = x
    · subst hx
      simp [hx0]
    · rw [if_neg (fun hc => hx hc.1), if_neg (fun hc => hx hc.1.symm)]
  · rw [if_neg (fun hc => hy hc.1), if_neg (fun hc => hy hc.2.symm)]

/-- The body painting loop of `draw_snake`. -/
lemma foldl_paint_height (ps : List (Nat × Nat)) (b : Board) :
    (ps.foldl (fun acc p => acc.setCell p.1 p.2 SNAKE_CHAR) b).height = b.height := by
  induction ps generalizing b with
  | nil => rfl
  | cons p t ih => simpa using ih (b.setCell p.1 p.2 SNAKE_CHAR)

lemma foldl_paint_width (ps : List (Nat × Nat)) (b : Board) :
    (ps.foldl (fun acc p => acc.setCell p.1 p.2 SNAKE_CHAR) b).width = b.width := by
  induction ps generalizing b with
  | nil => rfl
  | cons p t ih => simpa using ih (b.setCell p.1 p.2 SNAKE_CHAR)

lemma dimOk_foldl_paint {ps : List (Nat × Nat)} {b : Board} (hd : b.dimOk) :
    (ps.foldl (fun acc p => acc.setCell p.1 p.2 SNAKE_CHAR) b).dimOk := by
  induction ps generalizing b with
  | nil => exact hd
  | cons p t ih => exact ih (dimOk_setCell hd p.1 p.2 SNAKE_CHAR)

lemma cellAt_foldl_paint {ps : List (Nat × Nat)} {b : Board} (hd : b.dimOk)
    (hps : ∀ p ∈ ps, p.1 < b.width ∧ p.2 < b.height) (x y : Nat) :
    (ps.foldl (fun acc p => acc.setCell p.1 p.2 SNAKE_CHAR) b).cellAt x y
      = if (x, y) ∈ ps then SNAKE_CHAR else b.cellAt x y := by
  induction ps generalizing b with
  | nil => simp
  | cons p t ih =>
    have hp := hps p (List.mem_cons_self p t)
    have ht : ∀ q ∈ t, q.1 < (b.setCell p.1 p.2 SNAKE_CHAR).width ∧
        q.2 < (b.setCell p.1 p.2 SNAKE_CHAR).height := by
      intro q hq
      rw [width_setCell, height_setCell]
      exact hps q (List.mem_cons_of_mem _ hq)
    simp only [List.foldl_cons]
    rw [ih (dimOk_setCell hd p.1 p.2 SNAKE_CHAR) ht]
    rw [cellAt_setCell hd hp.1 hp.2]
    by_cases hmem : (x, y) ∈ t
    · simp [hmem]
    · by_cases hxy : (x, y) = p
      · have : x = p.1 ∧ y = p.2 := by
          rw [Prod.ext_iff] at hxy
          exact hxy
        simp [hmem, hxy, this]
      · have : ¬ (x = p.1 ∧ y = p.2) := by
          intro hc
          exact hxy (Prod.ext hc.1 hc.2)
        simp [hmem, hxy, this]

lemma height_draw_snake (b : Board) (s : Snake) (old : Nat × Nat) :
    (b.draw_snake s old).height = b.height := by
  unfold Board.draw_snake
  rw [foldl_paint_height, height_setCell]

lemma width_draw_snake (b : Board) (s : Snake) (old : Nat × Nat) :
    (b.draw_snake s old).width = b.width := by
  unfold Board.draw_snake
  rw [foldl_paint_width, width_setCell]

lemma dimOk_draw_snake {b : Board} (hd : b.dimOk) (s : Snake) (old : Nat × Nat) :
    (b.draw_snake s old).dimOk := by
  unfold Board.draw_snake
  exact dimOk_foldl_paint (dimOk_setCell hd old.1 old.2 BG_CHAR)

/-- Cell content after the incremental body redraw: body cells show the
snake symbol, the erased old tail shows background, everything else is
unchanged. -/
lemma cellAt_draw_snake {b : Board} (hd : b.dimOk) {s : Snake} {old : Nat × Nat}
    (hold : old.1 < b.width ∧ old.2 < b.height)
    (hps : ∀ p ∈ s.positions, p.1 < b.width ∧ p.2 < b.height) (x y : Nat) :
    (b.draw_snake s old).cellAt x y
      = if (x, y) ∈ s.positions then SNAKE_CHAR
        else if (x, y) = old then BG_CHAR
        else b.cellAt x y := by
  unfold Board.draw_snake
  have hd1 := dimOk_setCell hd old.1 old.2 BG_CHAR
  have hps1 : ∀ p ∈ s.positions,
      p.1 < (b.setCell old.1 old.2 BG_CHAR).width ∧
      p.2 < (b.setCell old.1 old.2 BG_CHAR).height := by
    intro q hq
    rw [width_setCell, height_setCell]
    exact hps q hq
  rw [cellAt_foldl_paint hd1 hps1, cellAt_setCell hd hold.1 hold.2]
  by_cases hmem : (x, y) ∈ s.positions
  · simp [hmem]
  · by_cases hxy : (x, y) = old
    · have : x = old.1 ∧ y = old.2 := by
        rw [Prod.ext_iff] at hxy
        exact hxy
      simp [hmem, hxy, this]
    · have : ¬ (x = old.1 ∧ y = old.2) := by
        intro hc
        exact hxy (Prod.ext hc.1 hc.2)
      simp [hmem, hxy, this]

lemma height_draw_fruit (b : Board) (fr : Nat × Nat) :
    (b.draw_fruit fr).height = b.height := rfl

lemma width_draw_fruit (b : Board) (fr : Nat × Nat) :
    (b.draw_fruit fr).width = b.width := rfl

lemma dimOk_draw_fruit {b : Board} (hd : b.dimOk) (fr : Nat × Nat) :
    (b.draw_fruit fr).dimOk := dimOk_setCell hd fr.1 fr.2 FRUIT_CHAR

lemma cellAt_draw_fruit {b : Board} (hd : b.dimOk) {fr : Nat × Nat}
    (hfr : fr.1 < b.width ∧ fr.2 < b.height) (x y : Nat) :
    (b.draw_fruit fr).cellAt x y
      = if (x, y) = fr then FRUIT_CHAR else b.cellAt x y := by
  unfold Board.draw_fruit
  rw [cellAt_setCell hd hfr.1 hfr.2]
  by_cases hxy : (x, y) = fr
  · have : x = fr.1 ∧ y = fr.2 := by
      rw [Prod.ext_iff] at hxy
      exact hxy
    simp [hxy, this]
  · have : ¬ (x = fr.1 ∧ y = fr.2) := by
      intro hc
      exact hxy (Prod.ext hc.1 hc.2)
    simp [hxy, this]

/-! ## Step projection lemmas -/

lemma doGrow_positions (s : Snake) : s.doGrow.positions = s.positions := rfl

lemma doGrow_size (s : Snake) : s.doGrow.size = s.size := rfl

lemma step_snake_eq (g : Game) (d : Nat × Nat) :
    (g.step d).snake
      = if g.fruit_position ∈ (g.snake.move_position g.board).2.positions
        then ((g.snake.move_position g.board).2).doGrow
        else (g.snake.move_position g.board).2 := by
  simp only [Game.step, Game.check_fruit, Game.new_fruit_position]
  split_ifs with h <;> rfl

lemma step_fruit_eq (g : Game) (d : Nat × Nat) :
    (g.step d).fruit_position
      = if g.fruit_position ∈ (g.snake.move_position g.board).2.positions
        then d
        else g.fruit_position := by
  simp only [Game.step, Game.check_fruit, Game.new_fruit_position]
  split_ifs with h <;> rfl

lemma step_board_eq (g : Game) (d : Nat × Nat) :
    (g.step d).board
      = (g.board.draw_snake (g.snake.move_position g.board).2
            (g.snake.move_position g.board).1).draw_fruit
          ((g.step d).fruit_position) := by
  rw [step_fruit_eq]
  simp only [Game.step, Game.check_fruit, Game.new_fruit_position]
  split_ifs with h <;> rfl

lemma step_snake_positions (g : Game) (d : Nat × Nat) :
    (g.step d).snake.positions = (g.snake.move_position g.board).2.positions := by
  rw [step_snake_eq]
  split_ifs with h <;> rfl

lemma step_board_height (g : Game) (d : Nat × Nat) :
    (g.step d).board.height = g.board.height := by
  rw [step_board_eq, height_draw_fruit, height_draw_snake]

lemma step_board_width (g : Game) (d : Nat × Nat) :
    (g.step d).board.width = g.board.width := by
  rw [step_board_eq, width_draw_fruit, width_draw_snake]

/-! ## Further movement helper lemmas -/

lemma move_fst_mem {s : Snake} (b : Board) (hne : s.positions ≠ []) :
    (s.move_position b).1 ∈ s.positions := by
  rw [move_position_fst]
  rcases hsp : s.positions with _ | ⟨a, t⟩
  · exact absurd hsp hne
  · simp

lemma move_positions_bounds {s : Snake} {b : Board}
    (hbody : ∀ p ∈ s.positions, p.1 < b.width ∧ p.2 < b.height) :
    ∀ p ∈ (s.move_position b).2.positions, p.1 < b.width ∧ p.2 < b.height := by
  intro p hp
  rcases move_positions_subset b hp with hin | ⟨c, hc, rfl⟩
  · exact hbody p hin
  · have := hbody c hc
    exact next_head_lt s.direction this.1 this.2

lemma move_length_ge {s : Snake} (b : Board)
    (hlen : 2 ≤ s.positions.length) :
    2 ≤ (s.move_position b).2.positions.length := by
  have hne : s.positions ≠ [] := by
    intro he
    rw [he] at hlen
    simp at hlen
  by_cases hg : 0 < s.grow
  · rw [move_length_of_grow b hg hne]
    omega
  · rw [move_length_of_nogrow b (by omega) hlen]
    exact hlen

/-! ## The rendering invariant -/

/-- The game invariant: the cell matrix has the declared dimensions, the
body has at least two segments, every body coordinate and the fruit
coordinate are in bounds, and the grid is exactly the projection of the
state — the fruit coordinate shows the fruit symbol (the fruit is drawn
last, so it wins on overlap), other body coordinates show the snake
symbol, and everything else shows the background symbol. -/
def Game.Inv (g : Game) : Prop :=
  g.board.dimOk ∧
  2 ≤ g.snake.positions.length ∧
  (∀ p ∈ g.snake.positions, p.1 < g.board.width ∧ p.2 < g.board.height) ∧
  (g.fruit_position.1 < g.board.width ∧ g.fruit_position.2 < g.board.height) ∧
  ∀ x < g.board.width, ∀ y < g.board.height,
    g.board.cellAt x y
      = if (x, y) = g.fruit_position then FRUIT_CHAR
        else if (x, y) ∈ g.snake.positions then SNAKE_CHAR
        else BG_CHAR

instance (g : Game) : Decidable g.Inv := by
  unfold Game.Inv Board.dimOk
  infer_instance

/-- `step` preserves the rendering invariant whenever the random fruit
draw is in bounds. -/
lemma Inv_step {g : Game} (hI : g.Inv) {d : Nat × Nat}
    (hd1 : d.1 < g.board.width) (hd2 : d.2 < g.board.height) :
    (g.step d).Inv := by
  obtain ⟨hdim, hlen, hbody, hfruit, hgrid⟩ := hI
  have hne : g.snake.positions ≠ [] := by
    intro he
    rw [he] at hlen
    simp at hlen
  have hold := hbody _ (move_fst_mem g.board hne)
  have hbounds' := move_positions_bounds (b := g.board) hbody
  constructor
  · rw [step_board_eq]
    exact dimOk_draw_fruit (dimOk_draw_snake hdim _ _) _
  refine ⟨?_, ?_, ?_, ?_⟩
  · rw [step_snake_positions]
    exact move_length_ge g.board hlen
  · intro p hp
    rw [step_snake_positions] at hp
    rw [step_board_width, step_board_height]
    exact hbounds' p hp
  · rw [step_board_width, step_board_height, step_fruit_eq]
    split_ifs with hc
    · exact ⟨hd1, hd2⟩
    · exact hfruit
  · intro x hx y hy
    rw [step_board_width] at hx
    rw [step_board_height] at hy
    have hdim1 : (g.board.draw_snake (g.snake.move_position g.board).2
        (g.snake.move_position g.board).1).dimOk := dimOk_draw_snake hdim _ _
    have hfr' : (g.step d).fruit_position.1 < g.board.width ∧
        (g.step d).fruit_position.2 < g.board.height := by
      rw [step_fruit_eq]
      split_ifs with hc
      · exact ⟨hd1, hd2⟩
      · exact hfruit
    rw [step_board_eq]
    rw [cellAt_draw_fruit hdim1
      (by rw [width_draw_snake, height_draw_snake]; exact hfr')]
    rw [cellAt_draw_snake hdim hold hbounds']
    rw [step_snake_positions]
    by_cases h1 : (x, y) = (g.step d).fruit_position
    · simp [h1]
    · rw [if_neg h1, if_neg h1]
      by_cases h2 : (x, y) ∈ (g.snake.move_position g.board).2.positions
      · simp [h2]
      · rw [if_neg h2, if_neg h2]
        by_cases h3 : (x, y) = (g.snake.move_position g.board).1
        · rw [if_pos h3]
        · rw [if_neg h3]
          rw [hgrid x hx y hy]
          have hnotmem : (x, y) ∉ g.snake.positions := by
            intro hmem
            rcases mem_move_positions g.board hlen hmem with hin | heq
            · exact h2 hin
            · exact h3 heq
          rw [if_neg hnotmem]
          have hnotfruit : ¬ (x, y) = g.fruit_position := by
            intro hf
            rw [step_fruit_eq] at h1
            by_cases hc : g.fruit_position ∈ (g.snake.move_position g.board).2.positions
            · rw [← hf] at hc
              exact h2 hc
            · rw [if_neg hc] at h1
              exact h1 hf
          rw [if_neg hnotfruit]

/-- `init` establishes the rendering invariant on a blank board, provided
the fruit draw is in bounds, differs from `(0, 0)` (which `draw_snake`
unconditionally erases), and does not land under the snake body (the
fruit is drawn before the body in `init`). -/
lemma Inv_init {g : Game} (hdim : g.board.dimOk)
    (hbg : ∀ x < g.board.width, ∀ y < g.board.height, g.board.cellAt x y = BG_CHAR)
    (hlen : 2 ≤ g.snake.positions.length)
    (hbody : ∀ p ∈ g.snake.positions, p.1 < g.board.width ∧ p.2 < g.board.height)
    {d : Nat × Nat} (hd1 : d.1 < g.board.width) (hd2 : d.2 < g.board.height)
    (hd0 : d ≠ (0, 0)) (hdb : d ∉ g.snake.positions) :
    (g.init d).Inv := by
  have hinit_board : (g.init d).board
      = (g.board.draw_fruit d).draw_snake g.snake (0, 0) := rfl
  have hinit_snake : (g.init d).snake = g.snake := rfl
  have hinit_fruit : (g.init d).fruit_position = d := rfl
  have hdimf : (g.board.draw_fruit d).dimOk := dimOk_draw_fruit hdim d
  have hw : (g.init d).board.width = g.board.width := by
    rw [hinit_board, width_draw_snake, width_draw_fruit]
  have hh : (g.init d).board.height = g.board.height := by
    rw [hinit_board, height_draw_snake, height_draw_fruit]
  constructor
  · rw [hinit_board]
    exact dimOk_draw_snake hdimf _ _
  refine ⟨?_, ?_, ?_, ?_⟩
  · rw [hinit_snake]
    exact hlen
  · intro p hp
    rw [hinit_snake] at hp
    rw [hw, hh]
    exact hbody p hp
  · rw [hinit_fruit, hw, hh]
    exact ⟨hd1, hd2⟩
  · intro x hx y hy
    rw [hw] at hx
    rw [hh] at hy
    rw [hinit_board, hinit_snake, hinit_fruit]
    have hzero : (0 : Nat) < g.board.width ∧ (0 : Nat) < g.board.height := by
      omega
    have hbody' : ∀ p ∈ g.snake.positions,
        p.1 < (g.board.draw_fruit d).width ∧ p.2 < (g.board.draw_fruit d).height := by
      intro q hq
      rw [width_draw_fruit, height_draw_fruit]
      exact hbody q hq
    rw [cellAt_draw_snake hdimf
      (by rw [width_draw_fruit, height_draw_fruit]; exact hzero) hbody']
    rw [cellAt_draw_fruit hdim ⟨hd1, hd2⟩]
    by_cases h1 : (x, y) = d
    · rw [if_pos h1, if_neg (by rw [h1]; exact hdb), if_neg (by rw [h1]; exact hd0),
        if_pos h1]
    · rw [if_neg h1, if_neg h1]
      by_cases h2 : (x, y) ∈ g.snake.positions
      · rw [if_pos h2, if_pos h2]
      · rw [if_neg h2, if_neg h2]
        by_cases h3 : (x, y) = (0, 0)
        · rw [if_pos h3]
        · rw [if_neg h3]
          exact hbg x hx y hy

/-! ## Test fixtures -/

/-- A two-segment snake on a 4 × 4 board, heading `DOWN`, no pending growth. -/
def fixtureSnake : Snake :=
  { size := 2, direction := Direction.DOWN, positions := [(2, 1), (2, 2)], grow := 0 }

/-- Mid-game state with the fruit directly ahead of the snake. -/
def fixtureGame : Game :=
  { board := Board.new 4 4, snake := fixtureSnake, fruit_position := (2, 3) }

/-- State where the fruit already lies under the head. -/
def fixtureEatGame : Game :=
  { board := Board.new 4 4
    snake := { size := 2, direction := Direction.DOWN, positions := [(2, 2), (2, 3)], grow := 0 }
    fruit_position := (2, 3) }

/-- A snake with one unit of pending growth. -/
def fixtureGrowSnake : Snake :=
  { size := 2, direction := Direction.DOWN, positions := [(1, 1), (1, 2)], grow := 1 }

/-- A snake sitting on the top edge heading `UP` (wrap-around case). -/
def fixtureSnakeUp : Snake :=
  { size := 2, direction := Direction.UP, positions := [(1, 0)], grow := 1 }

/-- A degenerate snake with an empty body. -/
def emptySnake : Snake :=
  { size := 5, direction := Direction.LEFT, positions := [], grow := 3 }

/-- Fresh 4 × 4 game before `init`. -/
def fixtureInitGame : Game :=
  { board := Board.new 4 4, snake := fixtureSnake, fruit_position := (0, 0) }

/-- The 4 × 4 game after `init` with fruit drawn at `(1, 1)`; satisfies the
rendering invariant. -/
def fixtureInvGame : Game := fixtureInitGame.init (1, 1)

/-- Bounds check used in statements: is the coordinate inside the board? -/
def coordInBounds (b : Board) (p : Nat × Nat) : Bool :=
  decide (p.1 < b.width) && decide (p.2 < b.height)

/-! ## Claims -/

/-- Claim C1 (confirmed): for every snake with a non-empty positions
sequence and every board, `move_position` returns the coordinate at the
front (tail) of the sequence before the update; the pending-growth counter
is decremented when positive (retaining the tail), otherwise the front
element is removed; and the new head — the post-removal back-of-sequence
coordinate advanced one cell in the current direction — is appended at the
back. -/
theorem claim1_move_position_algorithm (s : Snake) (b : Board) (h : s.positions ≠ []) :
    (s.move_position b).1 = s.positions.head h ∧
    (s.move_position b).2.grow = (if 0 < s.grow then s.grow - 1 else s.grow) ∧
    (∀ c, (if 0 < s.grow then s.positions else s.positions.tail).getLast? = some c →
      (s.move_position b).2.positions
        = (if 0 < s.grow then s.positions else s.positions.tail)
            ++ [next_head s.direction b c]) := by
  refine ⟨?_, move_grow s b, ?_⟩
  · rw [move_position_fst, List.head?_eq_head h]
    rfl
  · intro c hc
    rw [move_positions]
    have hc' : (moveBody s).getLast? = some c := hc
    rw [hc']
    rfl

/-- Witness for C1 at a concrete two-segment snake. -/
theorem claim1_witness :
    (fixtureSnake.move_position (Board.new 4 4)).1 = (2, 1) ∧
    (fixtureSnake.move_position (Board.new 4 4)).2.grow = 0 ∧
    (fixtureSnake.move_position (Board.new 4 4)).2.positions = [(2, 2), (2, 3)] := by
  have h := claim1_move_position_algorithm fixtureSnake (Board.new 4 4) (by decide)
  refine ⟨?_, ?_, ?_⟩
  · rw [h.1]
    rfl
  · rw [h.2.1]
    decide
  · rw [h.2.2 (2, 2) (by decide)]
    rfl

/-- Claim C2 (confirmed): the new head computed by `move_position` wraps
toroidally — `UP` from `y = 0` yields `height - 1`, `DOWN` from
`y = height - 1` yields `0`, `LEFT` from `x = 0` yields `width - 1`,
`RIGHT` from `x = width - 1` yields `0` — and is always in bounds.
The dimensions are `usize` values, hence bounded by `2 ^ 64`. -/
theorem claim2_wraparound (s : Snake) (b : Board) (x y : Nat)
    (hW : b.width ≤ USIZE) (hH : b.height ≤ USIZE)
    (hx : x < b.width) (hy : y < b.height)
    (hlast : (if 0 < s.grow then s.positions else s.positions.tail).getLast?
      = some (x, y)) :
    ∃ x' y',
      (s.move_position b).2.positions.getLast? = some (x', y') ∧
      x' < b.width ∧ y' < b.height ∧
      (s.direction = Direction.UP → y = 0 → y' = b.height - 1) ∧
      (s.direction = Direction.DOWN → y = b.height - 1 → y' = 0) ∧
      (s.direction = Direction.LEFT → x = 0 → x' = b.width - 1) ∧
      (s.direction = Direction.RIGHT → x = b.width - 1 → x' = 0) := by
  have hpos : (s.move_position b).2.positions
      = (if 0 < s.grow then s.positions else s.positions.tail)
          ++ [next_head s.direction b (x, y)] := by
    rw [move_positions]
    have hc' : (moveBody s).getLast? = some (x, y) := hlast
    rw [hc']
    rfl
  refine ⟨(next_head s.direction b (x, y)).1, (next_head s.direction b (x, y)).2,
    ?_, (next_head_lt s.direction hx hy).1, (next_head_lt s.direction hx hy).2,
    ?_, ?_, ?_, ?_⟩
  · rw [hpos]
    simp [List.getLast?_concat]
  · intro hd h0
    subst h0
    rw [hd]
    simp only [next_head]
    rw [if_neg (by omega)]
    exact wrappingSub_one_eq (by omega) hH
  · intro hd h0
    subst h0
    rw [hd]
    simp only [next_head]
    rw [if_pos (by omega)]
  · intro hd h0
    subst h0
    rw [hd]
    simp only [next_head]
    rw [if_neg (by omega)]
    exact wrappingSub_one_eq (by omega) hW
  · intro hd h0
    subst h0
    rw [hd]
    simp only [next_head]
    rw [if_pos (by omega)]

/-- Witness for C2: heading `UP` at the top edge of a 3 × 3 board wraps to
the bottom row. -/
theorem claim2_witness :
    ∃ x' y',
      (fixtureSnakeUp.move_position (Board.new 3 3)).2.positions.getLast?
        = some (x', y') ∧
      x' < (Board.new 3 3).width ∧ y' < (Board.new 3 3).height ∧
      (fixtureSnakeUp.direction = Direction.UP → 0 = 0 →
        y' = (Board.new 3 3).height - 1) ∧
      (fixtureSnakeUp.direction = Direction.DOWN → 0 = (Board.new 3 3).height - 1 →
        y' = 0) ∧
      (fixtureSnakeUp.direction = Direction.LEFT → 1 = 0 →
        x' = (Board.new 3 3).width - 1) ∧
      (fixtureSnakeUp.direction = Direction.RIGHT → 1 = (Board.new 3 3).width - 1 →
        x' = 0) :=
  claim2_wraparound fixtureSnakeUp (Board.new 3 3) 1 0
    (by decide) (by decide) (by decide) (by decide) (by decide)

/-- Claim C3 counterexample: on the tick whose post-move body contains the
fruit, the snake length is still the prior length (2), not prior + 1 —
`step` moves before `check_fruit`, so the growth increment only suppresses
the tail removal of the NEXT tick. -/
theorem claim3_counterexample :
    fixtureGame.fruit_position
      ∈ ((fixtureGame.snake.move_position fixtureGame.board).2).positions ∧
    fixtureGame.snake.positions.length = 2 ∧
    (fixtureGame.step (0, 0)).snake.positions.length = 2 := by
  decide

/-- Claim C3 (corrected): a fruit collision detected on tick N increments
the growth counter during tick N, but the length increase becomes visible
only at the end of tick N + 1: with no pending growth and length ≥ 2
before tick N, the length at the end of tick N equals the prior length,
and the length at the end of tick N + 1 equals the prior length + 1. -/
theorem claim3_amended (g : Game) (d1 d2 : Nat × Nat)
    (hg : g.snake.grow = 0) (hl : 2 ≤ g.snake.positions.length)
    (hc : g.fruit_position ∈ ((g.snake.move_position g.board).2).positions) :
    (g.step d1).snake.positions.length = g.snake.positions.length ∧
    ((g.step d1).step d2).snake.positions.length = g.snake.positions.length + 1 := by
  have h1 : (g.step d1).snake.positions.length = g.snake.positions.length := by
    rw [step_snake_positions]
    exact move_length_of_nogrow g.board hg hl
  refine ⟨h1, ?_⟩
  have hsnake1 : (g.step d1).snake = ((g.snake.move_position g.board).2).doGrow := by
    rw [step_snake_eq, if_pos hc]
  have hg' : 0 < (g.step d1).snake.grow := by
    rw [hsnake1]
    show 0 < (g.snake.move_position g.board).2.grow + 1
    omega
  have hlen' : 2 ≤ (g.step d1).snake.positions.length := by
    rw [h1]
    exact hl
  have hne' : (g.step d1).snake.positions ≠ [] := by
    intro he
    rw [he] at hlen'
    simp at hlen'
  rw [step_snake_positions, move_length_of_grow _ hg' hne', h1]

/-- Witness for the amended C3 on the concrete 4 × 4 state: length 2 on the
collision tick, length 3 one tick later. -/
theorem claim3_witness :
    fixtureGame.snake.grow = 0 ∧
    2 ≤ fixtureGame.snake.positions.length ∧
    fixtureGame.fruit_position
      ∈ ((fixtureGame.snake.move_position fixtureGame.board).2).positions ∧
    ((fixtureGame.step (0, 0)).snake.positions.length
        = fixtureGame.snake.positions.length ∧
      ((fixtureGame.step (0, 0)).step (1, 1)).snake.positions.length
        = fixtureGame.snake.positions.length + 1) :=
  ⟨by decide, by decide, by decide,
    claim3_amended fixtureGame (0, 0) (1, 1) (by decide) (by decide) (by decide)⟩

/-- Claim C4 (confirmed): the fruit-collision branch fires exactly when
some coordinate anywhere in the current body equals the fruit coordinate;
it replaces the fruit with the fresh draw and increments the growth
counter, and otherwise `check_fruit` leaves the game unchanged.  Within
`step` the check applies to the post-move body. -/
theorem claim4_check_fruit (g : Game) (d : Nat × Nat) :
    (g.fruit_position ∈ g.snake.positions →
      g.check_fruit d
        = { g with
              fruit_position := d,
              snake := { g.snake with grow := g.snake.grow + 1 } }) ∧
    (g.fruit_position ∉ g.snake.positions → g.check_fruit d = g) ∧
    ((g.step d).fruit_position
      = if g.fruit_position ∈ (g.snake.move_position g.board).2.positions then d
        else g.fruit_position) ∧
    ((g.step d).snake.grow
      = if g.fruit_position ∈ (g.snake.move_position g.board).2.positions
        then (g.snake.move_position g.board).2.grow + 1
        else (g.snake.move_position g.board).2.grow) := by
  refine ⟨?_, ?_, step_fruit_eq g d, ?_⟩
  · intro hmem
    unfold Game.check_fruit Game.new_fruit_position Snake.doGrow
    rw [if_pos hmem]
  · intro hmem
    unfold Game.check_fruit
    rw [if_neg hmem]
  · rw [step_snake_eq]
    split_ifs with hc <;> rfl

/-- Witness for C4 at a state whose body contains the fruit. -/
theorem claim4_witness :
    fixtureEatGame.check_fruit (1, 1)
      = { fixtureEatGame with
            fruit_position := (1, 1),
            snake := { fixtureEatGame.snake with
              grow := fixtureEatGame.snake.grow + 1 } } :=
  (claim4_check_fruit fixtureEatGame (1, 1)).1 (by decide)

/-- Claim C5 (confirmed): on a 4 × 4 board the constructed snake is
`[(2,2),(2,1)]` (tail first) heading `DOWN` with growth 0, and one
`move_position` with no growth pending returns erased tail `(2,2)` and
leaves the body `[(2,1),(2,2)]`. -/
theorem claim5_small_board :
    (Snake.new (Board.new 4 4)).positions = [(2, 2), (2, 1)] ∧
    (Snake.new (Board.new 4 4)).direction = Direction.DOWN ∧
    (Snake.new (Board.new 4 4)).grow = 0 ∧
    ((Snake.new (Board.new 4 4)).move_position (Board.new 4 4)).1 = (2, 2) ∧
    ((Snake.new (Board.new 4 4)).move_position (Board.new 4 4)).2.positions
      = [(2, 1), (2, 2)] := by
  decide

/-- Claim C6 counterexample: after `init` with the random fruit draw
`(0, 0)` on the 20 × 20 game built in `main`, the fruit cell shows the
background symbol — `draw_snake` unconditionally erases `(0, 0)` after the
fruit was drawn — so the rendering claim fails as stated. -/
theorem claim6_counterexample :
    (mainGame.init (0, 0)).fruit_position = (0, 0) ∧
    (mainGame.init (0, 0)).board.cellAt 0 0 = BG_CHAR ∧
    (BG_CHAR == FRUIT_CHAR) = false := by
  decide

/-- Claim C6 (corrected): the rendering invariant that holds on reachable
states is `Game.Inv` — the fruit cell shows the fruit symbol (the fruit is
drawn last each tick, so it takes precedence over a coinciding body cell),
all other body cells show the body symbol, and all remaining cells show
background.  `step` preserves it for every in-bounds draw, and `init`
establishes it on a blank board provided the initial draw is in bounds,
differs from `(0, 0)` (which `init`'s body redraw erases) and does not
land under the snake body (in `init` alone the fruit is drawn before the
body). -/
theorem claim6_amended :
    (∀ (g : Game) (d : Nat × Nat), g.Inv →
      d.1 < g.board.width → d.2 < g.board.height → (g.step d).Inv) ∧
    (∀ (g : Game) (d : Nat × Nat), g.board.dimOk →
      (∀ x < g.board.width, ∀ y < g.board.height, g.board.cellAt x y = BG_CHAR) →
      2 ≤ g.snake.positions.length →
      (∀ p ∈ g.snake.positions, p.1 < g.board.width ∧ p.2 < g.board.height) →
      d.1 < g.board.width → d.2 < g.board.height →
      d ≠ (0, 0) → d ∉ g.snake.positions →
      (g.init d).Inv) :=
  ⟨fun _ _ hI h1 h2 => Inv_step hI h1 h2,
    fun _ _ h1 h2 h3 h4 h5 h6 h7 h8 => Inv_init h1 h2 h3 h4 h5 h6 h7 h8⟩

/-- Witness for the amended C6: a concrete post-`init` state satisfies the
invariant and keeps satisfying it after a step. -/
theorem claim6_witness : Game.Inv (fixtureInvGame.step (2, 2)) :=
  claim6_amended.1 fixtureInvGame (2, 2) (by decide) (by decide) (by decide)

/-- Claim C7 counterexample: `Board::new` performs no validation —
constructing with `height = 0` succeeds and yields a board value with an
empty cell matrix instead of failing. -/
theorem claim7_counterexample :
    (Board.new 0 4).cells.length = 0 ∧
    (Board.new 0 4).height = 0 ∧
    (Board.new 0 4).width = 4 := by
  decide

/-- Claim C7 (corrected): `Board::new` cannot fail; with a zero dimension
it returns a degenerate grid with no usable cells, and for any dimensions
it returns a `height × width` grid with every cell set to background. -/
theorem claim7_amended (h w : Nat) (x y : Nat) (hx : x < w) (hy : y < h) :
    (Board.new h w).height = h ∧
    (Board.new h w).width = w ∧
    (Board.new h w).cells.length = h ∧
    (∀ j, j < h → ((Board.new h w).cells.getD j []).length = w) ∧
    (Board.new h w).cellAt x y = BG_CHAR := by
  refine ⟨rfl, rfl, by simp [Board.new], ?_, ?_⟩
  · intro j hj
    simp [Board.new, List.getD_eq_getElem?_getD, List.getElem?_replicate, hj]
  · simp [Board.new, Board.cellAt, List.getD_eq_getElem?_getD,
      List.getElem?_replicate, hx, hy]

/-- Witness for the amended C7 on a 2 × 3 board. -/
theorem claim7_witness :
    (Board.new 2 3).height = 2 ∧
    (Board.new 2 3).width = 3 ∧
    (Board.new 2 3).cells.length = 2 ∧
    (∀ j, j < 2 → ((Board.new 2 3).cells.getD j []).length = 3) ∧
    (Board.new 2 3).cellAt 1 1 = BG_CHAR :=
  claim7_amended 2 3 1 1 (by decide) (by decide)

/-- Claim C8 counterexample: the precondition `height / 2 ≥ 1` alone does
not put both initial coordinates in bounds — with `width = 0` (and
`height = 4`, so `height / 2 = 2 ≥ 1`) the constructed coordinates have
`x = 0`, which is not `< width = 0`. -/
theorem claim8_counterexample :
    (Board.new 4 0).height / 2 = 2 ∧
    Snake.new (Board.new 4 0)
      = { size := 2, direction := Direction.DOWN,
          positions := [(0, 2), (0, 1)], grow := 0 } ∧
    coordInBounds (Board.new 4 0) (0, 2) = false := by
  decide

/-- Claim C8 (corrected): under `height / 2 ≥ 1` (together with `width ≥ 1`,
which the bounds part additionally requires) the subtraction
`height / 2 - 1` does not underflow and both initial coordinates lie in
bounds; with `height / 2 = 0` the subtraction wraps around the `usize`
type, producing the out-of-bounds coordinate `2 ^ 64 - 1`. -/
theorem claim8_amended (b : Board) (hH : b.height ≤ USIZE) :
    (1 ≤ b.height / 2 → 1 ≤ b.width →
      (Snake.new b).positions
        = [(b.width / 2, b.height / 2), (b.width / 2, b.height / 2 - 1)] ∧
      (Snake.new b).positions.all (coordInBounds b) = true) ∧
    (b.height / 2 = 0 →
      (Snake.new b).positions
        = [(b.width / 2, 0), (b.width / 2, USIZE - 1)] ∧
      coordInBounds b (b.width / 2, USIZE - 1) = false) := by
  constructor
  · intro h1 h2
    have hsub : wrappingSub (b.height / 2) 1 = b.height / 2 - 1 :=
      wrappingSub_one_eq h1 (by omega)
    constructor
    · simp [Snake.new, hsub]
    · have hx : b.width / 2 < b.width := Nat.div_lt_self (by omega) (by omega)
      have hy1 : b.height / 2 < b.height := Nat.div_lt_self (by omega) (by omega)
      simp [Snake.new, hsub, List.all, coordInBounds, hx, hy1]
      omega
  · intro h0
    have hsub : wrappingSub 0 1 = USIZE - 1 := by
      decide
    constructor
    · simp [Snake.new, h0, hsub]
    · simp only [coordInBounds]
      have : ¬ (USIZE - 1 < b.height) := by
        rw [USIZE_eq] at *
        omega
      simp [this]

/-- Witness for the amended C8 on a 4 × 4 board. -/
theorem claim8_witness :
    (Snake.new (Board.new 4 4)).positions = [(2, 2), (2, 1)] ∧
    (Snake.new (Board.new 4 4)).positions.all (coordInBounds (Board.new 4 4))
      = true :=
  (claim8_amended (Board.new 4 4) (by decide)).1 (by decide) (by decide)

/-- Claim C9 (confirmed): the `size` field is 2 at construction and is
never modified by `grow`, `move_position` or `step`; it does not track the
body length, which can exceed 2 (a pending-growth move yields length 3
while `size` stays 2). -/
theorem claim9_size_frame (b : Board) (s : Snake) (g : Game) (d : Nat × Nat) :
    (Snake.new b).size = 2 ∧
    s.doGrow.size = s.size ∧
    (s.move_position b).2.size = s.size ∧
    (g.step d).snake.size = g.snake.size ∧
    (fixtureGrowSnake.move_position (Board.new 4 4)).2.size = 2 ∧
    (fixtureGrowSnake.move_position (Board.new 4 4)).2.positions.length = 3 := by
  refine ⟨rfl, rfl, move_size s b, ?_, by decide, by decide⟩
  rw [step_snake_eq]
  split_ifs with hc
  · rw [doGrow_size, move_size]
  · rw [move_size]

/-- Claim C10 (confirmed): with an empty positions sequence,
`move_position` is total — it returns `(0, 0)`, appends no head, leaves
the sequence empty, and only the growth counter may be decremented (the
direction and size fields are untouched). -/
theorem claim10_empty_positions (s : Snake) (b : Board) (h : s.positions = []) :
    (s.move_position b).1 = (0, 0) ∧
    (s.move_position b).2.positions = [] ∧
    (s.move_position b).2.grow = s.grow - 1 ∧
    (s.move_position b).2.direction = s.direction ∧
    (s.move_position b).2.size = s.size := by
  refine ⟨?_, ?_, ?_, move_direction s b, move_size s b⟩
  · rw [move_position_fst, h]
    rfl
  · rw [move_positions]
    have hb : moveBody s = [] := by simp [moveBody, h]
    rw [hb]
    rfl
  · rw [move_grow]
    split_ifs with hg <;> omega

/-- Witness for C10 on a concrete empty-bodied snake. -/
theorem claim10_witness :
    (emptySnake.move_position (Board.new 4 4)).1 = (0, 0) ∧
    (emptySnake.move_position (Board.new 4 4)).2.positions = [] ∧
    (emptySnake.move_position (Board.new 4 4)).2.grow = emptySnake.grow - 1 ∧
    (emptySnake.move_position (Board.new 4 4)).2.direction = emptySnake.direction ∧
    (emptySnake.move_position (Board.new 4 4)).2.size = emptySnake.size :=
  claim10_empty_positions emptySnake (Board.new 4 4) (by decide)

